import Mathlib

/-!
Verification of the similarity-search core of `app.py` (face-match service).

The development shallowly embeds the Python source: pure string and vector
computations become Lean functions on `String` / `List ℚ`; the module-level
mutable globals (`face_database`, `metadata_mapping`, `database_loaded`)
become an explicit `ServerState` threaded through `load_database`; the
filesystem, the DeepFace embedding provider and the metadata JSON are
captured as explicit environments (`BuildEnv`, `MatchEnv`) recording what
the external world returns for each call the code makes.  Machine floats
are idealised as rationals; the real-valued cosine distance
`1 - dot/(‖a‖·‖b‖)` is represented by the pair `(dot, ‖a‖²·‖b‖²)` of
rationals, with its ordering expressed over `ℝ` (`Real.sqrt`) in the
theorem statements and decided by the computable comparator `distLeB`.
-/

/-! ### Configuration constants (app.py lines 14-22) -/

def UPLOAD_FOLDER : String := "uploads"

def BEFORE_FOLDER_NAME : String := "before"

def AFTER_FOLDER_NAME : String := "after"

def ALLOWED_EXTENSIONS : List String := ["png", "jpg", "jpeg", "webp"]

def MODEL_NAME : String := "Facenet512"

/-- The constant `SIMILARITY_THRESHOLD = 0.50` (app.py line 22).  It is
defined in the source but never referenced by `match_face` or any other
function. -/
def SIMILARITY_THRESHOLD : ℚ := 1/2

/-! ### String helpers

`allowed_file` models `'.' in filename and filename.rsplit('.',1)[1].lower()
in ALLOWED_EXTENSIONS` (app.py lines 48-51); `splitextStem` models
`os.path.splitext(filename)[0]` (app.py line 115), including CPython's rule
that a run of leading dots never starts an extension; `basenameStr` models
`os.path.basename` on POSIX paths. -/

/-- Split a character list at its last '.', returning the parts before and
after it (Python's `rsplit('.', 1)` when a dot is present). -/
def lastDotSplit : List Char → Option (List Char × List Char)
  | [] => none
  | c :: cs =>
    match lastDotSplit cs with
    | some (pre, ext) => some (c :: pre, ext)
    | none => if c = '.' then some ([], cs) else none

def allowed_file (filename : String) : Bool :=
  match lastDotSplit filename.data with
  | some (_, ext) => ALLOWED_EXTENSIONS.contains ⟨ext.map Char.toLower⟩
  | none => false

/-- Index of the last '.' that is preceded by some non-dot character, the
position where `os.path.splitext` cuts (CPython keeps a leading run of dots
with the stem: `splitext(".bashrc") = (".bashrc", "")`). -/
def lastExtDotIdx : List Char → Nat → Bool → Option Nat → Option Nat
  | [], _, _, best => best
  | c :: cs, i, seenNonDot, best =>
    if c = '.' then
      lastExtDotIdx cs (i + 1) seenNonDot (if seenNonDot then some i else best)
    else
      lastExtDotIdx cs (i + 1) true best

/-- The stem `os.path.splitext(filename)[0]`: the filename with its
extension (if any) removed. -/
def splitextStem (s : String) : String :=
  match lastExtDotIdx s.data 0 false none with
  | some i => ⟨s.data.take i⟩
  | none => s

/-- Characters after the last '/', i.e. `os.path.basename` on POSIX. -/
def afterLastSlash : List Char → List Char
  | [] => []
  | c :: cs =>
    if cs.contains '/' then afterLastSlash cs
    else if c = '/' then cs else c :: cs

def basenameStr (s : String) : String := ⟨afterLastSlash s.data⟩

/-! ### Vectors and the data model -/

/-- An embedding vector; machine floats are idealised as rationals. -/
abbrev Emb := List ℚ

/-- Dot product of two vectors (numpy truncates to the shorter length; the
code only ever compares equal-length vectors). -/
def dotQ (u v : Emb) : ℚ := (List.zipWith (· * ·) u v).sum

/-- Squared Euclidean norm `‖v‖²`. -/
def normSq (v : Emb) : ℚ := (v.map fun x => x * x).sum

/-- One entry of the metadata JSON (`scraped_data.json`): a dict holding at
least a `case_id` plus arbitrary further string fields. -/
structure MetaItem where
  case_id : String
  fields : List (String × String)
deriving DecidableEq

/-- One entry of `face_database` (app.py lines 117-122).
`embedding = none` models a missing or non-`ndarray` value (reachable via a
hand-edited pickle cache), which `match_face` defends against. -/
structure GalleryRecord where
  before_path : String
  after_path : Option String
  embedding : Option Emb
  metadata : Option MetaItem
deriving DecidableEq

/-- The identifier of a record: the stem of its "before" filename
(`case_id = os.path.splitext(filename)[0]`, app.py line 115). -/
def recordIdentifier (r : GalleryRecord) : String :=
  splitextStem (basenameStr r.before_path)

/-- The module-level mutable globals (app.py lines 38-40). -/
structure ServerState where
  face_database : List GalleryRecord
  metadata_mapping : List (String × MetaItem)
  database_loaded : Bool
deriving DecidableEq

/-! ### Index builder (`load_database`, app.py lines 64-154) -/

/-- Outcome of one lenient `DeepFace.represent` call during the build:
a successful first embedding, an empty result list, a `ValueError`
(no face detected), or any other exception. -/
inductive EmbedOutcome
  | ok (e : Emb)
  | noResult
  | valueError
  | otherError
deriving DecidableEq

def isOkOutcome : EmbedOutcome → Bool
  | .ok _ => true
  | _ => false

/-- The external world as seen by one `load_database` call: the metadata
JSON (`none` = any load failure), existence of the before folder, the
`os.listdir` enumeration, which after-files exist, and the per-file
behaviour of the lenient embedding provider. -/
structure BuildEnv where
  metadataJson : Option (List MetaItem)
  beforeExists : Bool
  listing : List String
  afterExists : String → Bool
  embed : String → EmbedOutcome

/-- The dict comprehension `{item['case_id']: item for item in metadata_list}`
(app.py line 77); combined with `dictGet`, later duplicates override
earlier ones exactly as in a Python dict. -/
def buildMetaMapping (items : List MetaItem) : List (String × MetaItem) :=
  items.map fun it => (it.case_id, it)

/-- The lookup `metadata_mapping.get(case_id)` (app.py line 116): the value
of the last binding of the key, `none` if absent. -/
def dictGet (m : List (String × MetaItem)) (k : String) : Option MetaItem :=
  (m.reverse.find? fun p => p.1 == k).map (·.2)

/-- The metadata mapping resulting from the try/except at app.py
lines 74-81: the loaded dict, or empty on any failure. -/
def metaMap (env : BuildEnv) : List (String × MetaItem) :=
  match env.metadataJson with
  | some items => buildMetaMapping items
  | none => []

/-- The record appended for a successfully embedded file (app.py
lines 104-122): relative before path, the same-named after file when it
exists, the embedding, and the metadata looked up by the filename stem. -/
def mkRecord (env : BuildEnv) (mm : List (String × MetaItem)) (fn : String)
    (e : Emb) : GalleryRecord :=
  { before_path := BEFORE_FOLDER_NAME ++ "/" ++ fn
    after_path :=
      if env.afterExists fn then some (AFTER_FOLDER_NAME ++ "/" ++ fn) else none
    embedding := some e
    metadata := dictGet mm (splitextStem fn) }

/-- The body of the per-file loop (app.py lines 94-137) for one filename:
`some` record when the file has an allowed extension and the lenient embed
succeeds, `none` (skip) otherwise. -/
def processFile (env : BuildEnv) (mm : List (String × MetaItem))
    (fn : String) : Option GalleryRecord :=
  if allowed_file fn then
    match env.embed fn with
    | .ok e => some (mkRecord env mm fn e)
    | _ => none
  else none

/-- The `temp_database` accumulated by the loop: one record per allowed,
successfully embedded file, in listing order. -/
def buildRecords (env : BuildEnv) (mm : List (String × MetaItem)) :
    List GalleryRecord :=
  env.listing.filterMap (processFile env mm)

/-- The `failed_files` counter: allowed files whose lenient embedding did
not produce a usable first result (app.py lines 126-135). -/
def failed_files (env : BuildEnv) : Nat :=
  (env.listing.filter fun fn =>
    allowed_file fn && !isOkOutcome (env.embed fn)).length

/-- The `processed_files` counter (app.py line 123). -/
def processed_files (env : BuildEnv) : Nat :=
  (env.listing.filter fun fn =>
    allowed_file fn && isOkOutcome (env.embed fn)).length

/-- The builder `load_database` (app.py lines 64-154) as a state transformer.  Inside
the lock it returns unchanged if `database_loaded` is already set; else it
loads the metadata mapping, and if the before folder is missing marks the
database loaded leaving `face_database` untouched, otherwise builds the new
record list and publishes it.  (The pickle cache write at lines 146-154 is
a pure side effect on disk, modelled separately by `saveSnapshot`.) -/
def load_database (env : BuildEnv) (s : ServerState) : ServerState :=
  if s.database_loaded then s
  else
    let mm := metaMap env
    if env.beforeExists then
      { face_database := buildRecords env mm
        metadata_mapping := mm
        database_loaded := true }
    else
      { s with metadata_mapping := mm, database_loaded := true }

/-! ### Snapshot serialization

Modelled from the spec: the snapshot persistence in the code is
`pickle.dump(face_database, f)` (app.py line 151) and
`pickle.load(f)` (app.py line 1152); the pickle codec itself is Python
library code outside this repository.  Per the spec, "consumers of this
spec may choose any serialization as long as round-trip (`save` then
`load`) reproduces an index with identical records", so we give a concrete
structural codec for the record collection and prove that round-trip. -/

/-- A pickle-like structural value: strings, numbers, `None`, and lists. -/
inductive PValue
  | pstr (s : String)
  | prat (q : ℚ)
  | pnone
  | plist (l : List PValue)

/-- Decode every element of a list, failing if any element fails. -/
def decodeAll (g : PValue → Option α) : List PValue → Option (List α)
  | [] => some []
  | x :: xs =>
    match g x, decodeAll g xs with
    | some a, some as => some (a :: as)
    | _, _ => none

def encOptStr : Option String → PValue
  | none => .pnone
  | some s => .pstr s

def encOptEmb : Option Emb → PValue
  | none => .pnone
  | some v => .plist (v.map .prat)

def encMeta : Option MetaItem → PValue
  | none => .pnone
  | some m => .plist [.pstr m.case_id, .plist (m.fields.map fun p => .plist [.pstr p.1, .pstr p.2])]

def encRecord (r : GalleryRecord) : PValue :=
  .plist [.pstr r.before_path, encOptStr r.after_path, encOptEmb r.embedding,
          encMeta r.metadata]

/-- Serialize the full record collection (the `pickle.dump` of
`face_database`). -/
def saveSnapshot (db : List GalleryRecord) : PValue :=
  .plist (db.map encRecord)

def decStr : PValue → Option String
  | .pstr s => some s
  | _ => none

def decRat : PValue → Option ℚ
  | .prat q => some q
  | _ => none

def decOptStr : PValue → Option (Option String)
  | .pnone => some none
  | .pstr s => some (some s)
  | _ => none

def decOptEmb : PValue → Option (Option Emb)
  | .pnone => some none
  | .plist l => (decodeAll decRat l).map some
  | _ => none

def decPair : PValue → Option (String × String)
  | .plist [.pstr a, .pstr b] => some (a, b)
  | _ => none

def decMeta : PValue → Option (Option MetaItem)
  | .pnone => some none
  | .plist [.pstr cid, .plist ps] =>
    (decodeAll decPair ps).map fun fs => some ⟨cid, fs⟩
  | _ => none

def decRecord : PValue → Option GalleryRecord
  | .plist [b, a, e, m] =>
    match decStr b, decOptStr a, decOptEmb e, decMeta m with
    | some bp, some ap, some em, some md => some ⟨bp, ap, em, md⟩
    | _, _, _, _ => none
  | _ => none

/-- Deserialize a snapshot back into a record collection; any structural
mismatch yields `none` (the caller then falls back to a full rebuild). -/
def loadSnapshot : PValue → Option (List GalleryRecord)
  | .plist l => decodeAll decRecord l
  | _ => none

/-! ### Matcher (`match_face`, app.py lines 975-1107) -/

/-- One element of the `distances` list built by the comparison loop
(app.py line 1037): the database index together with the data of the
cosine distance `1 - dot/(‖q‖·‖v‖)` of the query `q` and the stored
vector `v`, represented exactly by the rationals `dot = ⟨q,v⟩` and
`nsq = ‖q‖²·‖v‖²` (the distance itself is the irrational
`1 - dot/√nsq`; when `nsq = 0` the float computation divides by zero
and yields NaN). -/
structure DistEntry where
  index : Nat
  dot : ℚ
  nsq : ℚ
deriving DecidableEq

/-- One iteration of the comparison loop (app.py lines 1025-1037) on the
enumerated entry `p`: skip (`none`) when the stored embedding is missing,
not an array, or of a different shape than the query; otherwise record the
index and the cosine-distance data. -/
def scanEntry (q : Emb) (p : Nat × GalleryRecord) : Option DistEntry :=
  match p.2.embedding with
  | none => none
  | some v =>
    if v.length = q.length then some ⟨p.1, dotQ q v, normSq q * normSq v⟩
    else none

/-- The comparison loop over `enumerate(face_database)` (app.py
lines 1025-1039): the `distances` list of all non-skipped entries. -/
def scanDistances (q : Emb) (db : List GalleryRecord) : List DistEntry :=
  db.enum.filterMap (scanEntry q)

/-- Sign of the real value `x / √p` (0 whenever `p ≤ 0`, where
`Real.sqrt` is 0 and Lean division by zero gives 0). -/
def valSign (x p : ℚ) : Int :=
  if 0 < p then (if 0 < x then 1 else if x < 0 then -1 else 0) else 0

/-- Computable comparator deciding `x / √p ≤ y / √q` over the reals (for
the junk-value convention `_ / √(nonpositive) = 0`): compare signs first,
then squared magnitudes cross-multiplied. -/
def cosLeB (x p y q : ℚ) : Bool :=
  if valSign x p < valSign y q then true
  else if valSign y q < valSign x p then false
  else if valSign x p = 1 then decide (x * x * q ≤ y * y * p)
  else if valSign x p = -1 then decide (y * y * p ≤ x * x * q)
  else true

/-- The sort key comparison of `distances.sort(key=lambda x: x['distance'])`
(app.py line 1048): distance `a` ≤ distance `b`, i.e. cosine of `b` ≤
cosine of `a`. -/
def distLeB (a b : DistEntry) : Bool :=
  cosLeB b.dot b.nsq a.dot a.nsq

/-- The real cosine-distance order on entries:
`1 - a.dot/√a.nsq ≤ 1 - b.dot/√b.nsq`. -/
def DistLeR (a b : DistEntry) : Prop :=
  1 - (a.dot : ℝ) / Real.sqrt (a.nsq : ℝ) ≤ 1 - (b.dot : ℝ) / Real.sqrt (b.nsq : ℝ)

/-- Equality of the real cosine distances of two entries. -/
def DistEqR (a b : DistEntry) : Prop :=
  1 - (a.dot : ℝ) / Real.sqrt (a.nsq : ℝ) = 1 - (b.dot : ℝ) / Real.sqrt (b.nsq : ℝ)

/-- One entry of the `matches` list in the JSON response (app.py
lines 1072-1077).  The reported float `similarity = 1 - distance` is the
real number `dot/√nsq`, carried here by its exact data `(dot, nsq)`; the
`index` is the `db_index` the entry was built from (app.py line 1058). -/
structure ScoredMatch where
  index : Nat
  dot : ℚ
  nsq : ℚ
  match_before_url : String
  match_after_url : Option String
  metadata : Option MetaItem
deriving DecidableEq

/-- Build one element of `top_matches_data` from a sorted distance entry
(app.py lines 1056-1077): look the record up by index and generate the
image URLs (`url_for('database_image', ...)`). -/
def mkScored (db : List GalleryRecord) (e : DistEntry) : ScoredMatch :=
  let r := db.getD e.index ⟨"", none, none, none⟩
  { index := e.index
    dot := e.dot
    nsq := e.nsq
    match_before_url :=
      "/database_images/" ++ BEFORE_FOLDER_NAME ++ "/" ++ basenameStr r.before_path
    match_after_url :=
      match r.after_path with
      | some ap => some ("/database_images/" ++ AFTER_FOLDER_NAME ++ "/" ++ basenameStr ap)
      | none => none
    metadata := r.metadata }

/-- The JSON body returned by `match_face` (fields of the various
`jsonify(...)` calls; absent keys are `none` / `[]`; `matchesList` is the
JSON key `matches`). -/
structure MatchResult where
  success : Bool
  message : String
  error_type : Option String
  uploaded_image_url : Option String
  matchesList : List ScoredMatch
deriving DecidableEq

/-- Observable side effects of one `match_face` call on the upload folder,
plus the `distances` list the scan computed (empty when no scan ran). -/
structure MatchEffects where
  fileSaved : Bool
  fileRetained : Bool
  comparisons : List DistEntry
deriving DecidableEq

/-- Outcome of the strict `DeepFace.represent` call on the uploaded image
(app.py lines 999-1007): a successful embedding, a `ValueError` carrying
its message (no face detected, or an empty result list), or any other
exception. -/
inductive QueryEmbedOutcome
  | ok (e : Emb)
  | valueError (msg : String)
  | otherError
deriving DecidableEq

/-- The external world as seen by one `match_face` request: the current
globals, the request's file part, and the strict embedding outcome. -/
structure MatchEnv where
  database_loaded : Bool
  face_database : List GalleryRecord
  hasFilePart : Bool
  filename : String
  queryEmbed : QueryEmbedOutcome

def notReadyResponse : MatchResult :=
  ⟨false, "Face database is not ready. Please wait or contact administrator.",
   none, none, []⟩

def noFilePartResponse : MatchResult :=
  ⟨false, "No file part in the request.", none, none, []⟩

def noSelectedFileResponse : MatchResult :=
  ⟨false, "No selected file.", none, none, []⟩

def notAllowedResponse : MatchResult :=
  ⟨false, "File type not allowed.", none, none, []⟩

def unexpectedEmbedResponse : MatchResult :=
  ⟨false, "An unexpected error occurred during image processing.", none, none, []⟩

def dbCompareErrorResponse : MatchResult :=
  ⟨false, "Could not compare with database entries.",
   some ("DB_COMPARE_ERROR"), none, []⟩

def noMatchFoundResponse : MatchResult :=
  ⟨false, "No suitable matches found in the database.",
   some ("NO_MATCH_FOUND"), none, []⟩

/-- No side effects: the request failed before the upload was saved. -/
def noEffects : MatchEffects := ⟨false, false, []⟩

/-- The `/match` handler `match_face` (app.py lines 975-1107).  Guards:
database readiness, file part present, nonempty filename, allowed
extension.  Then the upload is saved and embedded strictly (failures
remove the upload and report); on success the database is scanned, the
distance list sorted ascending by Python's stable `list.sort` (modelled by
the stable `List.mergeSort` with the same key comparison), and the top
`min(3, len(distances))` entries returned with `similarity = 1 - distance`;
an empty distance list yields the `DB_COMPARE_ERROR` response.  The upload
is kept (and its URL returned) only on the success response. -/
def match_face (env : MatchEnv) : MatchResult × MatchEffects :=
  if !env.database_loaded || env.face_database.isEmpty then
    (notReadyResponse, noEffects)
  else if !env.hasFilePart then
    (noFilePartResponse, noEffects)
  else if env.filename = "" then
    (noSelectedFileResponse, noEffects)
  else if allowed_file env.filename then
    match env.queryEmbed with
    | .valueError msg =>
      (⟨false, "Could not process image: " ++ msg, none, none, []⟩, ⟨true, false, []⟩)
    | .otherError =>
      (unexpectedEmbedResponse, ⟨true, false, []⟩)
    | .ok q =>
      let distances := scanDistances q env.face_database
      if distances.isEmpty then
        (dbCompareErrorResponse, ⟨true, false, distances⟩)
      else
        let sorted := distances.mergeSort distLeB
        let n := min 3 distances.length
        let top := (sorted.take n).map (mkScored env.face_database)
        if 0 < n then
          (⟨true, toString n ++ " matches found.", none,
            some ("/" ++ UPLOAD_FOLDER ++ "/" ++ env.filename), top⟩,
           ⟨true, true, distances⟩)
        else
          (noMatchFoundResponse, ⟨true, false, distances⟩)
  else
    (notAllowedResponse, noEffects)

/-! ### Concrete inputs used by witnesses and counterexamples -/

def sampleMeta : MetaItem := ⟨"a", [("procedure_name", "Rhinoplasty")]⟩

/-- The globals before any build has run. -/
def initialState : ServerState := ⟨[], [], false⟩

/-- A state in which a build has completed. -/
def loadedState : ServerState :=
  ⟨[⟨"before/a.jpg", none, some [1], none⟩], [], true⟩

/-- Build environment whose before folder holds two files differing only
in extension, both of which embed successfully. -/
def dupStemEnv : BuildEnv :=
  ⟨none, true, ["a.jpg", "a.png"], fun _ => false, fun _ => .ok [1]⟩

/-- Build environment with one good file, one file failing detection, and
one file of a non-allowed extension. -/
def mixedEnv : BuildEnv :=
  ⟨some [sampleMeta], true, ["a.jpg", "bad.jpg", "x.gif"],
   fun fn => fn == "a.jpg",
   fun fn => if fn = "bad.jpg" then .valueError else .ok [2]⟩

/-- A gallery record whose stored embedding is the zero vector. -/
def zeroRecord : GalleryRecord := ⟨"before/z.jpg", none, some [0, 0], none⟩

/-- Match environment querying a database that contains only a
zero-embedding record. -/
def zeroEnv : MatchEnv := ⟨true, [zeroRecord], true, "q.jpg", .ok [1, 1]⟩

def recA : GalleryRecord :=
  ⟨"before/a.jpg", some ("after/a.jpg"), some [1, 0], some sampleMeta⟩

def recB : GalleryRecord := ⟨"before/b.jpg", none, some [0, 1], none⟩

/-- Match environment with a well-formed two-record database and a query
embedding aligned with the first record. -/
def twoRecEnv : MatchEnv := ⟨true, [recA, recB], true, "q.jpg", .ok [1, 0]⟩

/-- Match environment whose strict embedding raises `ValueError`
(no face detected in the uploaded image). -/
def noFaceEnv : MatchEnv :=
  ⟨true, [recA, recB], true, "q.jpg",
   .valueError ("Face could not be detected in q.jpg.")⟩

/-- Match environment receiving a request before the build finished. -/
def notLoadedEnv : MatchEnv := ⟨false, [recA], true, "q.jpg", .ok [1, 0]⟩

/-- Real cosine-distance order on returned matches (`similarity`
reported to the caller is `1 - distance`, so this is also the reverse
similarity order). -/
def SDistLeR (a b : ScoredMatch) : Prop :=
  1 - (a.dot : ℝ) / Real.sqrt (a.nsq : ℝ) ≤ 1 - (b.dot : ℝ) / Real.sqrt (b.nsq : ℝ)

/-- Equality of the real cosine distances of two returned matches. -/
def SDistEqR (a b : ScoredMatch) : Prop :=
  1 - (a.dot : ℝ) / Real.sqrt (a.nsq : ℝ) = 1 - (b.dot : ℝ) / Real.sqrt (b.nsq : ℝ)

/-! ## Theorems

### String and path lemmas -/

theorem contains_iff_mem {l : List Char} {c : Char} :
    l.contains c = true ↔ c ∈ l := List.elem_iff

theorem afterLastSlash_no_slash : ∀ {l : List Char},
    l.contains '/' = false → afterLastSlash l = l
  | [], _ => rfl
  | c :: cs, h => by
    have h' : ¬('/' ∈ (c :: cs)) := fun hm => by
      rw [← contains_iff_mem, h] at hm
      cases hm
    have hc : ¬(c = '/') := fun hc => h' (by rw [hc]; exact List.mem_cons_self _ _)
    have hcs : cs.contains '/' = false := by
      cases h1 : cs.contains '/'
      · rfl
      · exact absurd (List.mem_cons_of_mem c (contains_iff_mem.mp h1)) h'
    simp only [afterLastSlash, hcs]
    simp only [Bool.false_eq_true, if_false]
    rw [if_neg fun hc' => hc hc']

theorem afterLastSlash_append : ∀ (pre : List Char) {r : List Char},
    r.contains '/' = false → afterLastSlash (pre ++ '/' :: r) = r
  | [], r, h => by
    simp only [List.nil_append, afterLastSlash, h]
    simp
  | c :: pre, r, h => by
    have hcont : (pre ++ '/' :: r).contains '/' = true :=
      contains_iff_mem.mpr (List.mem_append_right _ (List.mem_cons_self _ _))
    show afterLastSlash (c :: (pre ++ '/' :: r)) = r
    simp only [afterLastSlash, hcont, if_true]
    exact afterLastSlash_append pre h

theorem basenameStr_before (fn : String)
    (h : fn.data.contains '/' = false) :
    basenameStr (BEFORE_FOLDER_NAME ++ "/" ++ fn) = fn := by
  apply String.ext
  show afterLastSlash (BEFORE_FOLDER_NAME ++ "/" ++ fn).data = fn.data
  have hdata : (BEFORE_FOLDER_NAME ++ "/" ++ fn).data
      = BEFORE_FOLDER_NAME.data ++ '/' :: fn.data := rfl
  rw [hdata]
  exact afterLastSlash_append _ h

theorem before_path_injective {a b : String}
    (h : BEFORE_FOLDER_NAME ++ "/" ++ a = BEFORE_FOLDER_NAME ++ "/" ++ b) :
    a = b := by
  apply String.ext
  have hd : BEFORE_FOLDER_NAME.data ++ '/' :: a.data
      = BEFORE_FOLDER_NAME.data ++ '/' :: b.data := congrArg String.data h
  have := List.append_cancel_left hd
  exact List.cons.inj this |>.2

/-! ### Vector lemmas -/

theorem normSq_nonneg (v : Emb) : 0 ≤ normSq v := by
  apply List.sum_nonneg
  intro x hx
  obtain ⟨y, _, rfl⟩ := List.mem_map.mp hx
  exact mul_self_nonneg y

/-! ### Comparator correctness

`cosLeB x p y q` decides `x/√p ≤ y/√q` over the reals, under the
junk-value conventions `Real.sqrt t = 0` for `t ≤ 0` and `z / 0 = 0`. -/

theorem valSign_spec (x p : ℚ) :
    (valSign x p = 1 ∧ 0 < p ∧ 0 < x ∧ 0 < (x : ℝ) / Real.sqrt (p : ℝ)) ∨
    (valSign x p = -1 ∧ 0 < p ∧ x < 0 ∧ (x : ℝ) / Real.sqrt (p : ℝ) < 0) ∨
    (valSign x p = 0 ∧ (x : ℝ) / Real.sqrt (p : ℝ) = 0) := by
  unfold valSign
  by_cases hp : 0 < p
  · have hsq : 0 < Real.sqrt (p : ℝ) := Real.sqrt_pos.mpr (by exact_mod_cast hp)
    by_cases hx : 0 < x
    · exact Or.inl ⟨by rw [if_pos hp, if_pos hx], hp, hx,
        div_pos (by exact_mod_cast hx) hsq⟩
    · by_cases hx' : x < 0
      · refine Or.inr (Or.inl ⟨?_, hp, hx', div_neg_of_neg_of_pos (by exact_mod_cast hx') hsq⟩)
        rw [if_pos hp, if_neg hx, if_pos hx']
      · have hx0 : x = 0 := le_antisymm (not_lt.mp hx) (not_lt.mp hx')
        refine Or.inr (Or.inr ⟨?_, ?_⟩)
        · rw [if_pos hp, if_neg hx, if_neg hx']
        · rw [hx0]; simp
  · refine Or.inr (Or.inr ⟨if_neg hp, ?_⟩)
    have : Real.sqrt (p : ℝ) = 0 :=
      Real.sqrt_eq_zero'.mpr (by exact_mod_cast not_lt.mp hp)
    rw [this, div_zero]

theorem div_sqrt_le_iff_pos {x p y q : ℚ} (hp : 0 < p) (hq : 0 < q)
    (hx : 0 < x) (hy : 0 < y) :
    ((x : ℝ) / Real.sqrt (p : ℝ) ≤ (y : ℝ) / Real.sqrt (q : ℝ)) ↔
      x * x * q ≤ y * y * p := by
  have hpR : (0 : ℝ) < (p : ℝ) := by exact_mod_cast hp
  have hqR : (0 : ℝ) < (q : ℝ) := by exact_mod_cast hq
  have hsp : 0 < Real.sqrt (p : ℝ) := Real.sqrt_pos.mpr hpR
  have hsq : 0 < Real.sqrt (q : ℝ) := Real.sqrt_pos.mpr hqR
  have hxR : (0 : ℝ) ≤ (x : ℝ) := by exact_mod_cast hx.le
  have hyR : (0 : ℝ) ≤ (y : ℝ) := by exact_mod_cast hy.le
  rw [div_le_div_iff₀ hsp hsq]
  rw [mul_self_le_mul_self_iff (mul_nonneg hxR hsq.le) (mul_nonneg hyR hsp.le)]
  have e1 : (x : ℝ) * Real.sqrt (q : ℝ) * ((x : ℝ) * Real.sqrt (q : ℝ))
      = (x : ℝ) * (x : ℝ) * (q : ℝ) := by
    rw [show (x : ℝ) * Real.sqrt (q : ℝ) * ((x : ℝ) * Real.sqrt (q : ℝ))
        = (x : ℝ) * (x : ℝ) * (Real.sqrt (q : ℝ) * Real.sqrt (q : ℝ)) by ring,
      Real.mul_self_sqrt hqR.le]
  have e2 : (y : ℝ) * Real.sqrt (p : ℝ) * ((y : ℝ) * Real.sqrt (p : ℝ))
      = (y : ℝ) * (y : ℝ) * (p : ℝ) := by
    rw [show (y : ℝ) * Real.sqrt (p : ℝ) * ((y : ℝ) * Real.sqrt (p : ℝ))
        = (y : ℝ) * (y : ℝ) * (Real.sqrt (p : ℝ) * Real.sqrt (p : ℝ)) by ring,
      Real.mul_self_sqrt hpR.le]
  rw [e1, e2]
  constructor
  · intro h; exact_mod_cast h
  · intro h; exact_mod_cast h

theorem cosLeB_iff (x p y q : ℚ) :
    cosLeB x p y q = true ↔
      (x : ℝ) / Real.sqrt (p : ℝ) ≤ (y : ℝ) / Real.sqrt (q : ℝ) := by
  rcases valSign_spec x p with ⟨hs1, hp, hx, hv⟩ | ⟨hs1, hp, hx, hv⟩ | ⟨hs1, hv⟩ <;>
    rcases valSign_spec y q with ⟨hs2, hq, hy, hw⟩ | ⟨hs2, hq, hy, hw⟩ | ⟨hs2, hw⟩
  · -- signs (1, 1)
    unfold cosLeB
    rw [hs1, hs2]
    norm_num
    exact (div_sqrt_le_iff_pos hp hq hx hy).symm
  · -- (1, -1)
    unfold cosLeB
    rw [hs1, hs2]
    norm_num
    exact lt_trans hw hv
  · -- (1, 0)
    unfold cosLeB
    rw [hs1, hs2]
    norm_num
    rw [hw]
    exact hv
  · -- (-1, 1)
    unfold cosLeB
    rw [hs1, hs2]
    norm_num
    exact le_of_lt (lt_trans hv hw)
  · -- (-1, -1)
    unfold cosLeB
    rw [hs1, hs2]
    norm_num
    have hstep : ((x : ℝ) / Real.sqrt (p : ℝ) ≤ (y : ℝ) / Real.sqrt (q : ℝ)) ↔
        ((-y : ℚ) : ℝ) / Real.sqrt (q : ℝ) ≤ ((-x : ℚ) : ℝ) / Real.sqrt (p : ℝ) := by
      push_cast
      rw [neg_div, neg_div, neg_le_neg_iff]
    rw [hstep, div_sqrt_le_iff_pos hq hp (by linarith) (by linarith)]
    constructor <;> intro h <;> nlinarith
  · -- (-1, 0)
    unfold cosLeB
    rw [hs1, hs2]
    norm_num
    rw [hw]
    exact le_of_lt hv
  · -- (0, 1)
    unfold cosLeB
    rw [hs1, hs2]
    norm_num
    rw [hv]
    exact le_of_lt hw
  · -- (0, -1)
    unfold cosLeB
    rw [hs1, hs2]
    norm_num
    rw [hv]
    exact hw
  · -- (0, 0)
    unfold cosLeB
    rw [hs1, hs2]
    norm_num
    rw [hv, hw]

theorem distLeB_iff (a b : DistEntry) : distLeB a b = true ↔ DistLeR a b := by
  unfold distLeB DistLeR
  rw [cosLeB_iff, sub_le_sub_iff_left]

theorem distEqR_iff (a b : DistEntry) :
    DistEqR a b ↔ (distLeB a b = true ∧ distLeB b a = true) := by
  rw [distLeB_iff, distLeB_iff]
  unfold DistEqR DistLeR
  exact le_antisymm_iff

theorem distLeB_trans (a b c : DistEntry)
    (h1 : distLeB a b = true) (h2 : distLeB b c = true) : distLeB a c = true :=
  (distLeB_iff a c).mpr (le_trans ((distLeB_iff a b).mp h1) ((distLeB_iff b c).mp h2))

theorem distLeB_total (a b : DistEntry) : (distLeB a b || distLeB b a) = true := by
  rw [Bool.or_eq_true, distLeB_iff, distLeB_iff]
  exact le_total _ _

/-! ### Scan lemmas -/

theorem scanEntry_eq_some {q : Emb} {p : Nat × GalleryRecord} {e : DistEntry} :
    scanEntry q p = some e ↔
      ∃ v, p.2.embedding = some v ∧ v.length = q.length ∧
        e = ⟨p.1, dotQ q v, normSq q * normSq v⟩ := by
  unfold scanEntry
  cases hv : p.2.embedding with
  | none => simp
  | some v =>
    dsimp only
    by_cases hl : v.length = q.length
    · rw [if_pos hl]
      constructor
      · intro h
        exact ⟨v, rfl, hl, (Option.some.inj h).symm⟩
      · rintro ⟨w, hw, -, rfl⟩
        rw [Option.some.inj hw]
    · rw [if_neg hl]
      constructor
      · intro h; cases h
      · rintro ⟨w, hw, hwl, -⟩
        exact absurd (Option.some.inj hw ▸ hwl) hl

theorem enumFrom_pairwise_fst (n : Nat) (l : List GalleryRecord) :
    (List.enumFrom n l).Pairwise fun a b => a.1 < b.1 := by
  induction l generalizing n with
  | nil => exact List.Pairwise.nil
  | cons x xs ih =>
    rw [List.enumFrom_cons]
    refine List.Pairwise.cons ?_ (ih (n + 1))
    rintro ⟨i, a⟩ hp
    have := (List.mem_enumFrom hp).1
    omega

theorem scan_pairwise_index (q : Emb) (db : List GalleryRecord) :
    (scanDistances q db).Pairwise fun a b => a.index < b.index := by
  unfold scanDistances
  rw [List.pairwise_filterMap]
  have h : (db.enum).Pairwise fun a b => a.1 < b.1 := enumFrom_pairwise_fst 0 db
  refine h.imp ?_
  intro a b hab e he e' he'
  obtain ⟨v, -, -, rfl⟩ := scanEntry_eq_some.mp he
  obtain ⟨v', -, -, rfl⟩ := scanEntry_eq_some.mp he'
  exact hab

theorem scan_nodup (q : Emb) (db : List GalleryRecord) :
    (scanDistances q db).Nodup :=
  (scan_pairwise_index q db).imp fun hab he => absurd (he ▸ hab) (lt_irrefl _)

theorem scan_nsq_nonneg (q : Emb) (db : List GalleryRecord) :
    ∀ e ∈ scanDistances q db, 0 ≤ e.nsq := by
  intro e he
  obtain ⟨p, -, hp⟩ := List.mem_filterMap.mp he
  obtain ⟨v, -, -, rfl⟩ := scanEntry_eq_some.mp hp
  exact mul_nonneg (normSq_nonneg q) (normSq_nonneg v)

/-! ### Sorting lemmas: order and stability of the distance sort -/

theorem mergeSort_sorted_dist (l : List DistEntry) :
    (l.mergeSort distLeB).Pairwise DistLeR :=
  (List.sorted_mergeSort distLeB_trans distLeB_total l).imp
    fun h => (distLeB_iff _ _).mp h

theorem pair_sublist_of_mem {l : List DistEntry} {a b : DistEntry}
    (ha : a ∈ l) (hb : b ∈ l) (hne : a ≠ b) :
    [a, b].Sublist l ∨ [b, a].Sublist l := by
  induction l with
  | nil => cases ha
  | cons x xs ih =>
    rcases List.mem_cons.mp ha with rfl | ha'
    · have hb' : b ∈ xs := by
        rcases List.mem_cons.mp hb with rfl | hb'
        · exact absurd rfl hne
        · exact hb'
      exact Or.inl (List.Sublist.cons₂ a (List.singleton_sublist.mpr hb'))
    · rcases List.mem_cons.mp hb with rfl | hb'
      · exact Or.inr (List.Sublist.cons₂ b (List.singleton_sublist.mpr ha'))
      · rcases ih ha' hb' with h | h
        · exact Or.inl (List.Sublist.cons x h)
        · exact Or.inr (List.Sublist.cons x h)

theorem sublist_pair_antisym {l : List DistEntry} {a b : DistEntry}
    (hnd : l.Nodup) (hne : a ≠ b)
    (h1 : [a, b].Sublist l) (h2 : [b, a].Sublist l) : False := by
  induction l with
  | nil => cases h1
  | cons x xs ih =>
    rcases List.nodup_cons.mp hnd with ⟨hx, hnd'⟩
    cases h1 with
    | cons _ h1' =>
      cases h2 with
      | cons _ h2' => exact ih hnd' h1' h2'
      | cons₂ _ h2' =>
        -- x = b and [a] <+ xs; but [a,b] <+ xs means b ∈ xs, contradicting x ∉ xs
        exact hx (h1'.subset (List.mem_cons_of_mem a (List.mem_cons_self b [])))
    | cons₂ _ h1' =>
      -- x = a and [b] <+ xs
      cases h2 with
      | cons _ h2' =>
        -- [b, a] <+ xs means a ∈ xs, contradicting x = a ∉ xs
        exact hx (h2'.subset (List.mem_cons_of_mem b (List.mem_cons_self a [])))
      | cons₂ _ h2' => exact hne rfl

theorem mergeSort_tie_index {l : List DistEntry}
    (hidx : l.Pairwise fun a b => a.index < b.index) :
    (l.mergeSort distLeB).Pairwise fun a b => DistEqR a b → a.index < b.index := by
  rw [List.pairwise_iff_forall_sublist]
  intro a b hsub heq
  have hperm : (l.mergeSort distLeB).Perm l := List.mergeSort_perm l distLeB
  have hlnd : l.Nodup := hidx.imp fun hab he => absurd (he ▸ hab) (lt_irrefl _)
  have hond : (l.mergeSort distLeB).Nodup := hperm.symm.nodup hlnd
  have hal : a ∈ l := hperm.mem_iff.mp (hsub.subset (List.mem_cons_self a [b]))
  have hbl : b ∈ l := hperm.mem_iff.mp (hsub.subset (List.mem_cons_of_mem a (List.mem_cons_self b [])))
  have hne : a ≠ b := by
    rintro rfl
    have : ([a, a] : List DistEntry).Nodup := hsub.nodup hond
    rcases List.nodup_cons.mp this with ⟨hmem, -⟩
    exact hmem (List.mem_cons_self a [])
  rcases pair_sublist_of_mem hal hbl hne with hl1 | hl2
  · exact List.pairwise_iff_forall_sublist.mp hidx hl1
  · -- b precedes a in the input; stability would keep that order in the
    -- output, contradicting [a, b] being a sublist of the output
    exfalso
    have hpw : ([b, a] : List DistEntry).Pairwise fun u v => distLeB u v = true := by
      refine List.pairwise_cons.mpr ⟨?_, List.pairwise_singleton _ a⟩
      intro v hv
      rw [List.mem_singleton.mp hv]
      exact (distEqR_iff a b).mp heq |>.2
    have hsub2 : ([b, a] : List DistEntry).Sublist (l.mergeSort distLeB) :=
      List.sublist_mergeSort distLeB_trans distLeB_total hpw hl2
    exact sublist_pair_antisym hond hne hsub hsub2

theorem mkScored_dot (db : List GalleryRecord) (e : DistEntry) :
    (mkScored db e).dot = e.dot := rfl

theorem mkScored_nsq (db : List GalleryRecord) (e : DistEntry) :
    (mkScored db e).nsq = e.nsq := rfl

theorem mkScored_index (db : List GalleryRecord) (e : DistEntry) :
    (mkScored db e).index = e.index := rfl

/-- Reduction of `match_face` on the path that reaches the comparison
loop with a successfully embedded query. -/
theorem match_face_scan_path (env : MatchEnv) (qv : Emb)
    (hload : env.database_loaded = true)
    (hdb : env.face_database.isEmpty = false)
    (hfile : env.hasFilePart = true)
    (hname : ¬env.filename = "")
    (hext : allowed_file env.filename = true)
    (hq : env.queryEmbed = .ok qv) :
    match_face env =
      (if (scanDistances qv env.face_database).isEmpty then
        (dbCompareErrorResponse, ⟨true, false, scanDistances qv env.face_database⟩)
      else
        let sorted := (scanDistances qv env.face_database).mergeSort distLeB
        let n := min 3 (scanDistances qv env.face_database).length
        let top := (sorted.take n).map (mkScored env.face_database)
        if 0 < n then
          (⟨true, toString n ++ " matches found.", none,
            some ("/" ++ UPLOAD_FOLDER ++ "/" ++ env.filename), top⟩,
           ⟨true, true, scanDistances qv env.face_database⟩)
        else
          (noMatchFoundResponse, ⟨true, false, scanDistances qv env.face_database⟩)) := by
  unfold match_face
  rw [hload, hdb, hfile, hq, hext]
  simp only [Bool.not_true, Bool.false_or, Bool.or_false, if_false, if_true] at *
  rw [if_neg hname]
  simp only [Bool.false_eq_true, if_false]

/-- C1: for every loaded gallery index and query embedding for which at
least one (well-defined) distance was computed, `match_face` returns at
most 3 scored records, ordered by non-decreasing real cosine distance
(equivalently non-increasing similarity), with ties between equal
distances broken by the records' original index order (stability of the
sort), so the output is a deterministic function of the inputs. -/
theorem C1_top3_sorted_stable (env : MatchEnv) (qv : Emb)
    (hload : env.database_loaded = true)
    (hdb : env.face_database.isEmpty = false)
    (hfile : env.hasFilePart = true)
    (hname : ¬env.filename = "")
    (hext : allowed_file env.filename = true)
    (hq : env.queryEmbed = .ok qv)
    (hne : scanDistances qv env.face_database ≠ [])
    (_hdef : ∀ e ∈ scanDistances qv env.face_database, e.nsq ≠ 0) :
    ((match_face env).1.matchesList).length ≤ 3 ∧
    ((match_face env).1.matchesList).Pairwise SDistLeR ∧
    ((match_face env).1.matchesList).Pairwise
      (fun a b => SDistEqR a b → a.index < b.index) := by
  rw [match_face_scan_path env qv hload hdb hfile hname hext hq]
  rw [if_neg (by rw [List.isEmpty_eq_false.mpr hne]; exact Bool.false_ne_true)]
  have hpos : 0 < min 3 (scanDistances qv env.face_database).length := by
    have := List.length_pos.mpr hne
    omega
  dsimp only
  rw [if_pos hpos]
  dsimp only
  refine ⟨?_, ?_, ?_⟩
  · rw [List.length_map, List.length_take, List.length_mergeSort]
    omega
  · rw [List.pairwise_map]
    have hs := mergeSort_sorted_dist (scanDistances qv env.face_database)
    have ht := hs.sublist
      (List.take_sublist (min 3 (scanDistances qv env.face_database).length) _)
    exact ht.imp fun h => h
  · rw [List.pairwise_map]
    have hs := mergeSort_tie_index (scan_pairwise_index qv env.face_database)
    have ht := hs.sublist
      (List.take_sublist (min 3 (scanDistances qv env.face_database).length) _)
    exact ht.imp fun h => h

theorem scan_twoRecEnv :
    scanDistances [1, 0] twoRecEnv.face_database = [⟨0, 1, 1⟩, ⟨1, 0, 1⟩] := by
  simp [scanDistances, scanEntry, twoRecEnv, recA, recB, dotQ, normSq,
    List.enum, List.enumFrom, List.filterMap_cons]

/-- Witness for C1 at a concrete two-record database. -/
theorem C1_witness :
    (scanDistances [1, 0] twoRecEnv.face_database ≠ [] ∧
      ∀ e ∈ scanDistances [1, 0] twoRecEnv.face_database, e.nsq ≠ 0) ∧
    (((match_face twoRecEnv).1.matchesList).length ≤ 3 ∧
      ((match_face twoRecEnv).1.matchesList).Pairwise SDistLeR ∧
      ((match_face twoRecEnv).1.matchesList).Pairwise
        (fun a b => SDistEqR a b → a.index < b.index)) :=
  ⟨⟨by rw [scan_twoRecEnv]; exact List.cons_ne_nil _ _,
    by rw [scan_twoRecEnv]; intro e he; rcases List.mem_cons.mp he with rfl | he1
       · exact one_ne_zero
       · rcases List.mem_cons.mp he1 with rfl | he2
         · exact one_ne_zero
         · cases he2⟩,
   C1_top3_sorted_stable twoRecEnv [1, 0] rfl (by decide) rfl (by decide) (by decide)
     rfl
     (by rw [scan_twoRecEnv]; exact List.cons_ne_nil _ _)
     (by rw [scan_twoRecEnv]; intro e he; rcases List.mem_cons.mp he with rfl | he1
         · exact one_ne_zero
         · rcases List.mem_cons.mp he1 with rfl | he2
           · exact one_ne_zero
           · cases he2)⟩

/-- C4: the matcher applies no similarity-threshold filtering: whenever at
least one comparison succeeded, the response is a success carrying the top
`min(3, count)` candidates whatever their similarity values, and the
distinct "could not compare" failure (`DB_COMPARE_ERROR`) is returned
exactly when zero distances could be computed. -/
theorem C4_no_threshold (env : MatchEnv) (qv : Emb)
    (hload : env.database_loaded = true)
    (hdb : env.face_database.isEmpty = false)
    (hfile : env.hasFilePart = true)
    (hname : ¬env.filename = "")
    (hext : allowed_file env.filename = true)
    (hq : env.queryEmbed = .ok qv) :
    (scanDistances qv env.face_database ≠ [] →
      (match_face env).1.success = true ∧
      ((match_face env).1.matchesList).length
        = min 3 (scanDistances qv env.face_database).length) ∧
    (scanDistances qv env.face_database = [] →
      (match_face env).1 = dbCompareErrorResponse) ∧
    dbCompareErrorResponse ≠ noMatchFoundResponse ∧
    dbCompareErrorResponse.success = false := by
  rw [match_face_scan_path env qv hload hdb hfile hname hext hq]
  refine ⟨?_, ?_, by decide, rfl⟩
  · intro hne
    rw [if_neg (by rw [List.isEmpty_eq_false.mpr hne]; exact Bool.false_ne_true)]
    have hpos : 0 < min 3 (scanDistances qv env.face_database).length := by
      have := List.length_pos.mpr hne
      omega
    dsimp only
    rw [if_pos hpos]
    refine ⟨rfl, ?_⟩
    dsimp only
    rw [List.length_map, List.length_take, List.length_mergeSort]
    omega
  · intro hnil
    rw [if_pos (by rw [hnil]; rfl)]

/-- Witness for C4 at a concrete two-record database. -/
theorem C4_witness :
    (match_face twoRecEnv).1.success = true ∧
    ((match_face twoRecEnv).1.matchesList).length
      = min 3 (scanDistances [1, 0] twoRecEnv.face_database).length :=
  (C4_no_threshold twoRecEnv [1, 0] rfl (by decide) rfl (by decide) (by decide)
      rfl).1
    (by rw [scan_twoRecEnv]; exact List.cons_ne_nil _ _)

theorem processFile_eq_none {env : BuildEnv} {mm : List (String × MetaItem)}
    {fn : String} (h : isOkOutcome (env.embed fn) = false) :
    processFile env mm fn = none := by
  unfold processFile
  by_cases ha : allowed_file fn
  · rw [if_pos ha]
    cases he : env.embed fn with
    | ok e => rw [he] at h; simp [isOkOutcome] at h
    | noResult => rfl
    | valueError => rfl
    | otherError => rfl
  · rw [if_neg ha]

/-- C6: invoking the build when a build has already completed (the
`database_loaded` flag is set) is a no-op: the call returns without
rebuilding and leaves the gallery index, the metadata mapping and the
loaded flag unchanged. -/
theorem C6_second_build_noop (env : BuildEnv) (s : ServerState)
    (h : s.database_loaded = true) :
    load_database env s = s ∧
    (load_database env s).face_database = s.face_database ∧
    (load_database env s).metadata_mapping = s.metadata_mapping ∧
    (load_database env s).database_loaded = s.database_loaded := by
  have heq : load_database env s = s := by unfold load_database; rw [if_pos h]
  exact ⟨heq, by rw [heq], by rw [heq], by rw [heq]⟩

/-- Witness for C6: a second build invocation on an already-loaded state. -/
theorem C6_witness : load_database dupStemEnv loadedState = loadedState :=
  (C6_second_build_noop dupStemEnv loadedState rfl).1

/-- C7: when the strict-mode embedding provider detects no face in the
query image (a `ValueError`), `match_face` returns a failure response
whose message surfaces the detection error to the caller, the saved upload
is removed, and no scan of the gallery index is performed (the computed
distance list is empty). -/
theorem C7_noface_failure (env : MatchEnv) (msg : String)
    (hload : env.database_loaded = true)
    (hdb : env.face_database.isEmpty = false)
    (hfile : env.hasFilePart = true)
    (hname : ¬env.filename = "")
    (hext : allowed_file env.filename = true)
    (hq : env.queryEmbed = .valueError msg) :
    match_face env =
      (⟨false, "Could not process image: " ++ msg, none, none, []⟩,
       ⟨true, false, []⟩) := by
  unfold match_face
  rw [hload, hdb, hfile, hq, hext]
  simp only [Bool.not_true, Bool.false_or, Bool.or_false, if_false, if_true] at *
  rw [if_neg hname]
  simp only [Bool.false_eq_true, if_false]

/-- Witness for C7: a concrete request whose strict embedding fails. -/
theorem C7_witness :
    match_face noFaceEnv =
      (⟨false, "Could not process image: Face could not be detected in q.jpg.",
        none, none, []⟩, ⟨true, false, []⟩) :=
  C7_noface_failure noFaceEnv ("Face could not be detected in q.jpg.") rfl
    (by decide) rfl (by decide) (by decide) rfl

/-- C9: any match request arriving before a build completed, or when the
built index is empty, is rejected with the not-ready response — which is
distinguishable from the no-match-found response — without scanning any
record; and a build from a missing before-directory or one whose files all
fail embedding completes with the loaded flag set and an empty index. -/
theorem C9_not_ready (env : MatchEnv)
    (h : env.database_loaded = false ∨ env.face_database = []) :
    match_face env = (notReadyResponse, noEffects) ∧
    notReadyResponse.success = false ∧
    notReadyResponse ≠ noMatchFoundResponse ∧
    notReadyResponse.error_type = none ∧
    (∀ (benv : BuildEnv) (s : ServerState),
      s.database_loaded = false → s.face_database = [] →
      (benv.beforeExists = false ∨
        ∀ fn ∈ benv.listing, isOkOutcome (benv.embed fn) = false) →
      (load_database benv s).database_loaded = true ∧
      (load_database benv s).face_database = []) := by
  refine ⟨?_, rfl, by decide, rfl, ?_⟩
  · unfold match_face
    rcases h with h | h <;> simp [h]
  · intro benv s hs hdb hfail
    unfold load_database
    rw [if_neg (by rw [hs]; exact Bool.false_ne_true)]
    dsimp only
    rcases hfail with hbe | hall
    · rw [hbe]
      simp only [Bool.false_eq_true, if_false]
      exact ⟨by trivial, hdb⟩
    · cases hb : benv.beforeExists
      · simp only [Bool.false_eq_true, if_false]
        exact ⟨by trivial, hdb⟩
      · simp only [if_true]
        refine ⟨by trivial, ?_⟩
        exact List.filterMap_eq_nil_iff.mpr fun fn hfn =>
          processFile_eq_none (hall fn hfn)

/-- Witness for C9: a request arriving before the build finished. -/
theorem C9_witness :
    match_face notLoadedEnv = (notReadyResponse, noEffects) ∧
    notReadyResponse ≠ noMatchFoundResponse :=
  ⟨(C9_not_ready notLoadedEnv (Or.inl rfl)).1,
   (C9_not_ready notLoadedEnv (Or.inl rfl)).2.2.1⟩

/-- C10: whenever the handler saves the uploaded query image and then
returns any failure response, the saved file is removed before returning
(`fileRetained = false`); only on the success response is the upload
retained, and then its URL is included in the response. -/
theorem C10_upload_cleanup (env : MatchEnv) :
    ((match_face env).2.fileSaved = true → (match_face env).1.success = false →
      (match_face env).2.fileRetained = false) ∧
    ((match_face env).1.success = true →
      (match_face env).2.fileSaved = true ∧
      (match_face env).2.fileRetained = true ∧
      (match_face env).1.uploaded_image_url
        = some ("/" ++ UPLOAD_FOLDER ++ "/" ++ env.filename)) := by
  unfold match_face
  repeat' split
  all_goals dsimp only
  repeat' split
  all_goals simp [notReadyResponse, noFilePartResponse, noSelectedFileResponse,
    notAllowedResponse, unexpectedEmbedResponse, dbCompareErrorResponse,
    noMatchFoundResponse, noEffects]

/-- Witness for C10: a failing request whose upload was saved and is then
removed. -/
theorem C10_witness :
    ((match_face noFaceEnv).2.fileSaved = true ∧
      (match_face noFaceEnv).1.success = false) ∧
    (match_face noFaceEnv).2.fileRetained = false :=
  ⟨⟨by decide, by decide⟩,
   (C10_upload_cleanup noFaceEnv).1 (by decide) (by decide)⟩

/-- C2 counterexample: the before folder holds `a.jpg` and `a.png`, both of
which embed successfully; the built index then contains two records whose
identifier (filename stem) is `"a"`, so identifiers are not unique. -/
theorem C2_counterexample :
    ((load_database dupStemEnv initialState).face_database.map recordIdentifier
      = ["a", "a"]) ∧
    ¬((load_database dupStemEnv initialState).face_database.map
        recordIdentifier).Nodup := by
  constructor
  · decide
  · decide

theorem processFile_some_id {env : BuildEnv} {mm : List (String × MetaItem)}
    {fn : String} {r : GalleryRecord} (hs : fn.data.contains '/' = false)
    (h : processFile env mm fn = some r) :
    allowed_file fn = true ∧ recordIdentifier r = splitextStem fn := by
  unfold processFile at h
  by_cases ha : allowed_file fn
  · rw [if_pos ha] at h
    cases he : env.embed fn with
    | ok e =>
      rw [he] at h
      refine ⟨ha, ?_⟩
      cases Option.some.inj h
      unfold recordIdentifier mkRecord
      dsimp only
      rw [basenameStr_before fn hs]
    | noResult => rw [he] at h; cases h
    | valueError => rw [he] at h; cases h
    | otherError => rw [he] at h; cases h
  · rw [if_neg ha] at h; cases h

/-- C2 amended: for every build from an existing before directory whose
listing consists of slash-free names (as `os.listdir` yields), if no two
allowed files share the same stem, then the identifiers of the produced
records are pairwise distinct; uniqueness can only fail when two files
differ solely in their extension. -/
theorem C2_unique_ids_of_distinct_stems (env : BuildEnv) (s : ServerState)
    (hload : s.database_loaded = false)
    (hdir : env.beforeExists = true)
    (hslash : ∀ fn ∈ env.listing, fn.data.contains '/' = false)
    (hstems : env.listing.Pairwise fun f g =>
      allowed_file f = true → allowed_file g = true →
        splitextStem f ≠ splitextStem g) :
    ((load_database env s).face_database.map recordIdentifier).Nodup := by
  unfold load_database
  rw [if_neg (by rw [hload]; exact Bool.false_ne_true)]
  dsimp only
  rw [hdir]
  simp only [if_true]
  show ((buildRecords env (metaMap env)).map recordIdentifier).Pairwise (· ≠ ·)
  unfold buildRecords
  rw [List.map_filterMap]
  rw [List.pairwise_filterMap]
  refine hstems.imp_of_mem ?_
  intro f g hf hg hfg b hb b' hb'
  rcases ho : processFile env (metaMap env) f with _ | r
  · rw [ho] at hb; cases hb
  · rcases ho' : processFile env (metaMap env) g with _ | r'
    · rw [ho'] at hb'; cases hb'
    · rw [ho] at hb
      rw [ho'] at hb'
      cases Option.some.inj hb
      cases Option.some.inj hb'
      obtain ⟨haf, hid⟩ := processFile_some_id (hslash f hf) ho
      obtain ⟨hag, hid'⟩ := processFile_some_id (hslash g hg) ho'
      rw [hid, hid']
      exact hfg haf hag

/-- Witness for the amended C2 at a listing with pairwise distinct stems. -/
theorem C2_witness :
    ((load_database mixedEnv initialState).face_database.map
        recordIdentifier).Nodup :=
  C2_unique_ids_of_distinct_stems mixedEnv initialState rfl rfl (by decide)
    (by decide)

theorem scan_zeroEnv : scanDistances [1, 1] [zeroRecord] = [⟨0, 0, 0⟩] := by
  simp [scanDistances, scanEntry, zeroRecord, dotQ, normSq, List.enum,
    List.enumFrom, List.filterMap_cons]

/-- C3 counterexample: a record whose stored embedding is the zero vector
of matching shape is not skipped by the comparison loop: it yields a
distance entry whose squared-norm product is 0 (the cosine formula is
evaluated with a zero denominator, NaN in the float computation), and the
request even succeeds returning that record as the top match. -/
theorem C3_counterexample :
    zeroRecord.embedding = some [0, 0] ∧
    normSq [0, 0] = 0 ∧
    scanDistances [1, 1] [zeroRecord] = [⟨0, 0, 0⟩] ∧
    (match_face zeroEnv).2.comparisons = [⟨0, 0, 0⟩] ∧
    (match_face zeroEnv).1.success = true := by
  have hs : scanDistances [1, 1] zeroEnv.face_database = [⟨0, 0, 0⟩] :=
    scan_zeroEnv
  have hm := match_face_scan_path zeroEnv [1, 1] rfl (by decide) rfl (by decide)
    (by decide) rfl
  rw [hs] at hm
  refine ⟨rfl, by norm_num [normSq], scan_zeroEnv, ?_, ?_⟩
  · rw [hm]; rfl
  · rw [hm]; rfl

/-- C3 amended (skip characterization): during matching a record is
skipped if and only if its stored embedding is missing/invalid or its
length differs from the query's; zero-vector embeddings are not screened
out — for every retained record the loop records exactly the cosine
formula data `(dot, ‖q‖²·‖v‖²)`, which for a zero vector has a zero
squared-norm product (an undefined distance). -/
theorem C3_skip_characterization (qv : Emb) (db : List GalleryRecord) :
    (∀ i r, db[i]? = some r →
      ((∃ e ∈ scanDistances qv db, e.index = i) ↔
        ∃ v, r.embedding = some v ∧ v.length = qv.length)) ∧
    (∀ e ∈ scanDistances qv db, ∃ r v, db[e.index]? = some r ∧
      r.embedding = some v ∧ e.dot = dotQ qv v ∧ e.nsq = normSq qv * normSq v) := by
  constructor
  · intro i r hir
    constructor
    · rintro ⟨e, he, rfl⟩
      obtain ⟨p, hpmem, hp⟩ := List.mem_filterMap.mp he
      obtain ⟨v, hv, hl, rfl⟩ := scanEntry_eq_some.mp hp
      have := List.mem_enum_iff_getElem?.mp hpmem
      rw [hir] at this
      rw [Option.some.inj this]
      exact ⟨v, hv, hl⟩
    · rintro ⟨v, hv, hl⟩
      refine ⟨⟨i, dotQ qv v, normSq qv * normSq v⟩, ?_, rfl⟩
      refine List.mem_filterMap.mpr ⟨(i, r), ?_, ?_⟩
      · exact List.mem_enum_iff_getElem?.mpr hir
      · exact scanEntry_eq_some.mpr ⟨v, hv, hl, rfl⟩
  · intro e he
    obtain ⟨p, hpmem, hp⟩ := List.mem_filterMap.mp he
    obtain ⟨v, hv, hl, rfl⟩ := scanEntry_eq_some.mp hp
    exact ⟨p.2, v, List.mem_enum_iff_getElem?.mp hpmem, hv, rfl, rfl⟩

/-- Witness for the amended C3: the zero-vector record of matching shape
is retained by the scan. -/
theorem C3_witness :
    ∃ v, zeroRecord.embedding = some v ∧ v.length = ([1, 1] : Emb).length :=
  ((C3_skip_characterization [1, 1] [zeroRecord]).1 0 zeroRecord rfl).mp
    ⟨⟨0, 0, 0⟩, by rw [scan_zeroEnv]; exact List.mem_singleton_self _, rfl⟩

theorem decodeAll_encode {α : Type} (f : α → PValue) (g : PValue → Option α)
    (h : ∀ x, g (f x) = some x) : ∀ l : List α, decodeAll g (l.map f) = some l
  | [] => rfl
  | x :: xs => by
    rw [List.map_cons]
    unfold decodeAll
    rw [h x, decodeAll_encode f g h xs]

theorem decRecord_enc (r : GalleryRecord) : decRecord (encRecord r) = some r := by
  obtain ⟨bp, ap, em, md⟩ := r
  have h2 : decOptStr (encOptStr ap) = some ap := by cases ap <;> rfl
  have h3 : decOptEmb (encOptEmb em) = some em := by
    cases em with
    | none => rfl
    | some v =>
      show decOptEmb (PValue.plist (v.map PValue.prat)) = some (some v)
      unfold decOptEmb
      dsimp only
      rw [decodeAll_encode PValue.prat decRat (fun x => rfl) v]
      rfl
  have h4 : decMeta (encMeta md) = some md := by
    cases md with
    | none => rfl
    | some m =>
      obtain ⟨cid, fs⟩ := m
      show decMeta (PValue.plist [PValue.pstr cid,
          PValue.plist (fs.map fun p => PValue.plist [PValue.pstr p.1, PValue.pstr p.2])])
        = some (some ⟨cid, fs⟩)
      unfold decMeta
      dsimp only
      rw [decodeAll_encode (fun p : String × String =>
          PValue.plist [PValue.pstr p.1, PValue.pstr p.2]) decPair
          (fun p => by obtain ⟨x, y⟩ := p; rfl) fs]
      rfl
  show decRecord (PValue.plist [PValue.pstr bp, encOptStr ap, encOptEmb em, encMeta md])
      = some ⟨bp, ap, em, md⟩
  unfold decRecord
  dsimp only
  rw [h2, h3, h4]
  rfl

/-- C5 (snapshot round-trip, serialization modelled from the spec since
pickle is library code): saving the full record collection and loading the
snapshot back yields exactly the original collection — the same records in
the same order, with identical identifiers, asset references, embeddings
and metadata (embedding components are exact rationals here, so the
floating-point tolerance is trivially met). -/
theorem C5_snapshot_roundtrip (db : List GalleryRecord) :
    loadSnapshot (saveSnapshot db) = some db := by
  unfold saveSnapshot loadSnapshot
  exact decodeAll_encode encRecord decRecord decRecord_enc db

theorem processFile_eq_some {env : BuildEnv} {mm : List (String × MetaItem)}
    {fn : String} {r : GalleryRecord} :
    processFile env mm fn = some r ↔
      allowed_file fn = true ∧ ∃ e, env.embed fn = .ok e ∧ r = mkRecord env mm fn e := by
  unfold processFile
  by_cases ha : allowed_file fn
  · rw [if_pos ha]
    cases he : env.embed fn with
    | ok e => simp [he, ha, eq_comm]
    | noResult => simp [he, ha]
    | valueError => simp [he, ha]
    | otherError => simp [he, ha]
  · rw [if_neg ha]
    simp [ha]

theorem processFile_isSome (env : BuildEnv) (mm : List (String × MetaItem))
    (fn : String) :
    (processFile env mm fn).isSome
      = (allowed_file fn && isOkOutcome (env.embed fn)) := by
  unfold processFile
  by_cases ha : allowed_file fn
  · rw [if_pos ha, ha]
    cases env.embed fn <;> simp [isOkOutcome]
  · rw [if_neg ha]
    rw [Bool.eq_false_iff.mpr ha]
    rfl

theorem length_filterMap_eq (f : α → Option β) :
    ∀ l : List α, (l.filterMap f).length = (l.filter fun x => (f x).isSome).length
  | [] => rfl
  | x :: xs => by
    rw [List.filterMap_cons, List.filter_cons]
    cases hf : f x with
    | none => simp [hf, length_filterMap_eq f xs]
    | some b => simp [hf, length_filterMap_eq f xs]

theorem filter_length_partition (pa pb : α → Bool) :
    ∀ l : List α,
      (l.filter fun x => pa x && pb x).length +
        (l.filter fun x => pa x && !pb x).length = (l.filter pa).length
  | [] => rfl
  | x :: xs => by
    rw [List.filter_cons, List.filter_cons, List.filter_cons]
    cases hpa : pa x <;> cases hpb : pb x <;>
      simp [hpa, hpb, ← filter_length_partition pa pb xs] <;> omega

/-- C8: per-file embedding failures during the build are contained: for
every source listing and every behaviour of the lenient provider the build
completes (the loaded flag is set); every allowed file whose embedding
succeeds contributes its record to the index; no record stems from a file
whose embedding failed (such files are excluded); the index holds exactly
`processed_files` records; and the processed and failed counters partition
the allowed files, so each failure is counted and never aborts the loop. -/
theorem C8_partial_failure (env : BuildEnv) (s : ServerState)
    (hload : s.database_loaded = false) (hdir : env.beforeExists = true) :
    (load_database env s).database_loaded = true ∧
    (∀ fn ∈ env.listing, allowed_file fn = true → ∀ e, env.embed fn = .ok e →
      mkRecord env (metaMap env) fn e ∈ (load_database env s).face_database) ∧
    (∀ fn, allowed_file fn = true → isOkOutcome (env.embed fn) = false →
      ∀ r ∈ (load_database env s).face_database,
        r.before_path ≠ BEFORE_FOLDER_NAME ++ "/" ++ fn) ∧
    (load_database env s).face_database.length = processed_files env ∧
    processed_files env + failed_files env
      = (env.listing.filter allowed_file).length := by
  have hstate : load_database env s =
      { face_database := buildRecords env (metaMap env)
        metadata_mapping := metaMap env
        database_loaded := true } := by
    unfold load_database
    rw [if_neg (by rw [hload]; exact Bool.false_ne_true)]
    dsimp only
    rw [hdir]
    simp only [if_true]
  rw [hstate]
  refine ⟨rfl, ?_, ?_, ?_, ?_⟩
  · intro fn hfn ha e he
    exact List.mem_filterMap.mpr
      ⟨fn, hfn, processFile_eq_some.mpr ⟨ha, e, he, rfl⟩⟩
  · intro fn ha hfail r hr hpath
    obtain ⟨g, hg, hpg⟩ := List.mem_filterMap.mp hr
    obtain ⟨hag, e, heg, rfl⟩ := processFile_eq_some.mp hpg
    have hfg : g = fn := before_path_injective hpath
    rw [hfg] at heg
    rw [heg] at hfail
    simp [isOkOutcome] at hfail
  · show (env.listing.filterMap (processFile env (metaMap env))).length
        = processed_files env
    rw [length_filterMap_eq]
    unfold processed_files
    congr 1
    exact List.filter_congr fun fn _ => processFile_isSome env (metaMap env) fn
  · unfold processed_files failed_files
    exact filter_length_partition allowed_file
      (fun fn => isOkOutcome (env.embed fn)) env.listing

/-- Witness for C8 at a listing with one success, one detection failure
and one non-allowed file. -/
theorem C8_witness :
    (load_database mixedEnv initialState).database_loaded = true ∧
    mkRecord mixedEnv (metaMap mixedEnv) ("a.jpg") [2]
      ∈ (load_database mixedEnv initialState).face_database ∧
    processed_files mixedEnv + failed_files mixedEnv
      = (mixedEnv.listing.filter allowed_file).length :=
  ⟨(C8_partial_failure mixedEnv initialState rfl rfl).1,
   (C8_partial_failure mixedEnv initialState rfl rfl).2.1 ("a.jpg") (by decide)
     (by decide) [2] (by decide),
   (C8_partial_failure mixedEnv initialState rfl rfl).2.2.2.2⟩
